import Mathlib

/-!
Shallow embedding of `apress_downloader.py` (class `ApressDownloader`).

The Python script authenticates against Apress.com, scrapes the paginated
table of purchased products, and downloads each product's file formats.
The embedding below translates the class methods `stream_file`,
`download_product`, `login` and `fetch_products` into pure Lean functions.
External effects are made explicit:

* HTTP responses become input data (`Page` for a parsed listing page, the
  final URL after redirects for `login`, the chunk list of a streamed body
  for `stream_file`);
* the filesystem becomes an `isfile` predicate plus a possible `os.mkdir`
  error, and file writes / HTTP downloads become explicit action lists;
* `logging` calls become an accumulated list of `(level, message)` entries;
* the unbounded `while has_more` loop of `fetch_products` is given an
  explicit fuel parameter: a `none` result means the fuel was exhausted,
  so termination statements assert a `some` result for sufficient fuel.
-/

/-- Log severity levels of the Python `logging` calls used by the script
(`logger.debug` / `logger.info` / `logger.warn` / `logger.error`). -/
inductive LogLevel where
  | debug
  | info
  | warning
  | error
deriving DecidableEq

/-- A single log record: severity plus rendered message. -/
abbrev LogEntry := LogLevel × String

/-- One HTML `<option>` element from the 4th table column of a product row:
`text` is the element text (the format label fed to `.lower()`), `value`
its `value` attribute (the download URL), as read on lines 116-118. -/
structure OptionEl where
  text : String
  value : String
deriving DecidableEq

/-- One `<tr>` of `table#my-downloadable-products-table tbody`, as the script
reads it: `title` is the text of the 3rd `<td>` (`none` when `select_one`
finds no such cell, line 102), `opts` the `<option>` elements found inside
the 4th `<td>` (line 111). -/
structure Row where
  title : Option String
  opts : List OptionEl
deriving DecidableEq

/-- The `<div class="pages">` child of the pager; `hasNext` records whether
it contains an `<li class="next">` element (line 123). -/
structure PagesDiv where
  hasNext : Bool
deriving DecidableEq

/-- The `<div class="pager">` element; `pages` is its `<div class="pages">`
child, `none` when `find` returns no such child (line 122). -/
structure PagerDiv where
  pages : Option PagesDiv
deriving DecidableEq

/-- One parsed listing page: the product table rows and the pager `div`
(`none` when the document has no `<div class="pager">` at all, in which
case line 122 raises `AttributeError` on `None.find`). -/
structure Page where
  rows : List Row
  pager : Option PagerDiv
deriving DecidableEq

/-- A product record, the dict built per row on lines 99-118: the
entity-decoded `title` and the `links` dict from lowercased format label to
download URL. Python dict assignment is modelled by an association list
with insert-or-replace semantics (`dictInsert`). -/
structure Product where
  title : String
  links : List (String × String)
deriving DecidableEq

/-- `opt.text.lower()`: lowercase the format label character by
character (`Char.toLower` lowercases exactly the ASCII uppercase
letters). -/
def pyLower (s : String) : String :=
  String.mk (s.data.map Char.toLower)

/-- Python dict assignment `d[k] = v`: replace the value of an existing key
in place, otherwise add the pair at the end. -/
def dictInsert (d : List (String × String)) (k v : String) : List (String × String) :=
  if d.any (fun p => p.1 = k) then
    d.map (fun p => if p.1 = k then (k, v) else p)
  else d ++ [(k, v)]

/-- Outcome of `soup.find('div', class_='pager').find('div', class_='pages')`
followed by the continuation test `if pager and pager.find('li', class_='next')`
(lines 122-123): `none` models the `AttributeError` raised when the pager
`div` is missing (the first `find` returns `None`); `some b` is the boolean
value of the continuation test otherwise (`false` both when the `pages`
`div` is missing and when it has no `next` item). -/
def pageHasNext (pg : Page) : Option Bool :=
  match pg.pager with
  | none => none
  | some pd =>
    match pd.pages with
    | none => some false
    | some pgs => some pgs.hasNext

/-- Lines 98-120, body of the row loop of `fetch_products`, for one row:
`none` with a warning when the title cell is missing (row skipped via
`continue`), otherwise the product dict with `title` set to the unescaped
cell text and `links` built from the options (with a warning, but still a
product, when no options are found). `u` is `HTMLParser().unescape`. -/
def processRow (u : String → String) (row : Row) : Option Product × List LogEntry :=
  match row.title with
  | none => (none, [(LogLevel.warning, "Could not find title in product table row!")])
  | some t =>
    (some { title := u t,
            links := row.opts.foldl
              (fun d opt => dictInsert d (pyLower opt.text) opt.value) [] },
      if row.opts = [] then
        [(LogLevel.warning, "Could not find list of downloads for " ++ t)]
      else [])

/-- The products appended while looping over one page's rows: rows whose
title cell is missing contribute nothing, every other row contributes its
product, in row order. -/
def pageProducts (u : String → String) (pg : Page) : List Product :=
  pg.rows.filterMap (fun row => (processRow u row).1)

/-- The warnings logged while looping over one page's rows, in row order. -/
def pageRowLogs (u : String → String) (pg : Page) : List LogEntry :=
  pg.rows.foldl (fun l row => l ++ (processRow u row).2) []

/-- The `logger.info` entry of line 88 for a page request. -/
def fetchInfoLog (page : Nat) : LogEntry :=
  (LogLevel.info, "Fetching products page " ++ toString page ++ "...")

/-- The `logger.warn` entry of line 95 for a page with no table rows. -/
def noProductsWarnLog (page : Nat) : LogEntry :=
  (LogLevel.warning, "Did not find any products on page " ++ toString page ++ "!")

/-- Possible exceptional outcome of an iteration of `fetch_products`. -/
inductive FetchErr where
  /-- `AttributeError` from `None.find` when the pager `div` is missing. -/
  | attributeError
deriving DecidableEq

/-- Result of a completed `fetch_products` run: the 1-based page numbers
requested (one GET per loop iteration, line 89), the accumulated products,
and the log entries. -/
structure FetchResult where
  requests : List Nat
  products : List Product
  logs : List LogEntry
deriving DecidableEq

/-- The `while has_more` loop of `fetch_products` (lines 87-126), one step
per fuel unit. `site` maps a page number to the parsed listing page for
that request. Each iteration: log the info line, GET the page (recorded in
`reqs`), return the accumulated products if no rows were found, otherwise
parse the rows and consult the pager: a missing pager `div` raises
(`FetchErr.attributeError`), a present `next` item continues with the page
counter incremented, anything else ends the loop normally. -/
def fetchProductsAux (site : Nat → Page) (u : String → String) :
    Nat → Nat → List Product → List Nat → List LogEntry →
    Option (Except FetchErr FetchResult)
  | 0, _, _, _, _ => none
  | fuel + 1, page, acc, reqs, logs =>
    if (site page).rows = [] then
      some (Except.ok ⟨reqs ++ [page], acc,
        (logs ++ [fetchInfoLog page]) ++ [noProductsWarnLog page]⟩)
    else
      match pageHasNext (site page) with
      | none => some (Except.error FetchErr.attributeError)
      | some true =>
        fetchProductsAux site u fuel (page + 1)
          (acc ++ pageProducts u (site page)) (reqs ++ [page])
          ((logs ++ [fetchInfoLog page]) ++ pageRowLogs u (site page))
      | some false =>
        some (Except.ok ⟨reqs ++ [page], acc ++ pageProducts u (site page),
          (logs ++ [fetchInfoLog page]) ++ pageRowLogs u (site page)⟩)

/-- `ApressDownloader.fetch_products` (lines 80-128): start at page 1 with
empty accumulators. The `limit` query parameter only appears inside the
request URL string and does not influence control flow, so requests are
recorded by their page number. -/
def fetch_products (site : Nat → Page) (u : String → String) (fuel : Nat) :
    Option (Except FetchErr FetchResult) :=
  fetchProductsAux site u fuel 1 [] [] []

/-- `ApressDownloader.login` (lines 61-77). The network interaction is
reduced to its observable input: `finalUrl` is `response.url`, the final
URL after the credential POST has followed redirects. Returns the boolean
result together with the log entries. -/
def login (username password finalUrl : String) : Bool × List LogEntry :=
  let authLog : LogEntry :=
    (LogLevel.info,
      "Authenticating with Username: " ++ username ++ " and Password: " ++
        String.mk (password.data.map (fun _ => '*')))
  if finalUrl = "https://www.apress.com/customer/account/login/" then
    (false, [authLog, (LogLevel.error, "Failed to authenticate with Apress.com")])
  else if finalUrl = "https://www.apress.com/customer/account/" then
    (true, [authLog])
  else
    (true, [authLog,
      (LogLevel.error,
        "Failed to authenticate with Apress.com, redirected to: " ++ finalUrl)])

/-- The character class kept verbatim by the substitution on line 40: the
regex replaces every maximal run of characters outside
`[-a-zA-Z0-9_+()\[\]]` by a single underscore. -/
def allowedChar (c : Char) : Bool :=
  c == '-' || (decide ('a' ≤ c) && decide (c ≤ 'z')) ||
  (decide ('A' ≤ c) && decide (c ≤ 'Z')) ||
  (decide ('0' ≤ c) && decide (c ≤ '9')) ||
  c == '_' || c == '+' || c == '(' || c == ')' || c == '[' || c == ']'

/-- `title.encode('ascii', 'ignore')`: drop every character outside the
ASCII range instead of transliterating it. -/
def asciiEncode (s : String) : String :=
  String.mk (s.data.filter (fun c => decide (c.toNat < 128)))

/-- The whitespace characters removed by Python's `str.strip()` with no
argument: space, tab, linefeed, carriage return, vertical tab, form feed. -/
def isPyWhitespaceB (c : Char) : Bool :=
  c == ' ' || c == '\t' || c == '\n' || c == '\r' || c == '\x0b' || c == '\x0c'

/-- Python `str.strip()`: remove leading and trailing whitespace. -/
def pyStrip (s : String) : String :=
  String.mk (((s.data.dropWhile isPyWhitespaceB).reverse.dropWhile
    isPyWhitespaceB).reverse)

/-- `re.sub(r'[^-a-zA-Z0-9_+()\[\]]+', '_', ...)`: each maximal run of
disallowed characters becomes one underscore. The boolean argument records
whether the previous character belonged to such a run. -/
def squashUnderscores : List Char → Bool → List Char
  | [], _ => []
  | c :: rest, inRun =>
    if allowedChar c then c :: squashUnderscores rest false
    else if inRun then squashUnderscores rest true
    else '_' :: squashUnderscores rest true

/-- Line 40-41 of `download_product`: the directory/file base name derived
from the product title — `re.sub(r'[^-a-zA-Z0-9_+()\[\]]+', '_',
title.encode('ascii', 'ignore').strip())`. Note the `.strip()` between the
ASCII filter and the substitution. -/
def sanitizeName (title : String) : String :=
  String.mk (squashUnderscores (pyStrip (asciiEncode title)).data false)

/-- The name-derivation recipe exactly as the claim words it, for
comparison with `sanitizeName`: discard non-ASCII characters, then replace
every maximal run of characters outside the allowed set with one
underscore — with no whitespace stripping step. -/
def claimedSanitizeName (title : String) : String :=
  String.mk (squashUnderscores (asciiEncode title).data false)

/-- The errors `os.mkdir` can raise; in Python 2 every one of them is an
`OSError` (already-exists, permission denied, and any other errno). -/
inductive MkdirErr where
  | alreadyExists
  | permissionDenied
  | otherError (errno : Nat)
deriving DecidableEq

/-- The result of attempting `os.mkdir(path + '/' + name)` (line 44); the
error, if any, is part of the modelled filesystem input. -/
def tryMkdir (e : Option MkdirErr) : Except MkdirErr Unit :=
  match e with
  | none => Except.ok ()
  | some err => Except.error err

/-- The observable effect of one iteration of the download loop
(lines 53-59): either a streaming GET writing the file, or the
`"Not re-downloading"` info log with no request and no write. -/
inductive DlAction where
  | download (url : String) (file : String)
  | skip (file : String)
deriving DecidableEq

/-- Line 48 plus `filename + extension` (line 54): the local file path
`path/name/name.extension` for one format. -/
def targetFile (path name ext : String) : String :=
  path ++ "/" ++ name ++ "/" ++ name ++ "." ++ ext

/-- Lines 53-59, one `(extension, url)` entry: download unless the file
already exists and overwrite is off (`if not os.path.isfile(local_file) or
self.overwrite`). -/
def dlStep (overwrite : Bool) (isfile : String → Bool) (path name : String)
    (kv : String × String) : DlAction :=
  if !(isfile (targetFile path name kv.1)) || overwrite then
    DlAction.download kv.2 (targetFile path name kv.1)
  else
    DlAction.skip (targetFile path name kv.1)

/-- `ApressDownloader.download_product` (lines 38-59). Filesystem inputs
are explicit: `isfile` is `os.path.isfile`, `mkdirE` the error (if any)
raised by `os.mkdir`. The `try/except OSError: pass` on lines 43-46 is
modelled literally: a raised `MkdirErr` would propagate as
`Except.error`, but the handler turns every such error back into
`Except.ok` before the download loop runs. Returns the list of download
actions performed over the product's links. -/
def download_product (overwrite : Bool) (isfile : String → Bool)
    (mkdirE : Option MkdirErr) (product : Product) (path : String) :
    Except MkdirErr (List DlAction) :=
  let name := sanitizeName product.title
  let afterMkdir : Except MkdirErr Unit :=
    match tryMkdir mkdirE with
    | Except.ok () => Except.ok ()
    | Except.error _ => Except.ok ()
  match afterMkdir with
  | Except.error e => Except.error e
  | Except.ok () =>
    Except.ok (product.links.foldl
      (fun acts kv => acts ++ [dlStep overwrite isfile path name kv]) [])

/-- `ApressDownloader.stream_file` (lines 28-36). The streamed response
body is the input list `chunks` (`response.iter_content(chunk_size=1024)`),
`url` and `filename` the arguments of the Python method. The first
component is the sequence of chunks written to the file (the comprehension
skips falsy, i.e. empty, chunks); the second is the returned `writes`
list, one entry per executed `fileh.write` (whose Python 2 result is
`None`, modelled by `Unit`). -/
def stream_file (url filename : String) (chunks : List String) :
    List String × List Unit :=
  chunks.foldl
    (fun st chunk =>
      if chunk = "" then st else (st.1 ++ [chunk], st.2 ++ [()]))
    ([], [])

/-- The page numbers `[k, k+1, ..., k+n-1]` of `n` consecutive requests. -/
def pagesFrom (k : Nat) : Nat → List Nat
  | 0 => []
  | n + 1 => k :: pagesFrom (k + 1) n

/-- The concatenated products of `n` consecutive listing pages starting at
page `k`, in page order. -/
def productsFrom (site : Nat → Page) (u : String → String) (k : Nat) :
    Nat → List Product
  | 0 => []
  | n + 1 => pageProducts u (site k) ++ productsFrom site u (k + 1) n

/-! ### Helper lemmas -/

theorem pagesFrom_length (k : Nat) : ∀ n, (pagesFrom k n).length = n := by
  intro n
  induction n generalizing k with
  | zero => rfl
  | succ m ih => simp [pagesFrom, ih]

theorem foldl_push_eq_map {α β : Type} (f : α → β) :
    ∀ (l : List α) (acc : List β),
      l.foldl (fun acts x => acts ++ [f x]) acc = acc ++ l.map f := by
  intro l
  induction l with
  | nil => intro acc; simp
  | cons x xs ih => intro acc; simp [List.foldl_cons, ih]

theorem dictInsert_keys (d : List (String × String)) (k v : String) :
    ∀ kv ∈ dictInsert d k v, kv.1 = k ∨ kv ∈ d := by
  intro kv hkv
  unfold dictInsert at hkv
  by_cases h : d.any (fun p => p.1 = k)
  · rw [if_pos h] at hkv
    obtain ⟨p, hp, hpe⟩ := List.mem_map.mp hkv
    by_cases hk : p.1 = k
    · rw [if_pos hk] at hpe
      exact Or.inl (by rw [← hpe])
    · rw [if_neg hk] at hpe
      exact Or.inr (hpe ▸ hp)
  · rw [if_neg h] at hkv
    rcases List.mem_append.mp hkv with h1 | h1
    · exact Or.inr h1
    · simp at h1
      exact Or.inl (by rw [h1])

theorem links_foldl_keys :
    ∀ (opts : List OptionEl) (d : List (String × String)) (kv : String × String),
      kv ∈ opts.foldl (fun d opt => dictInsert d (pyLower opt.text) opt.value) d →
      kv ∈ d ∨ ∃ opt, opt ∈ opts ∧ kv.1 = pyLower opt.text := by
  intro opts
  induction opts with
  | nil => intro d kv h; exact Or.inl h
  | cons o os ih =>
    intro d kv h
    rw [List.foldl_cons] at h
    rcases ih (dictInsert d (pyLower o.text) o.value) kv h with h1 | h1
    · rcases dictInsert_keys d (pyLower o.text) o.value kv h1 with h2 | h2
      · exact Or.inr ⟨o, List.mem_cons_self o os, h2⟩
      · exact Or.inl h2
    · obtain ⟨opt, hmem, heq⟩ := h1
      exact Or.inr ⟨opt, List.mem_cons_of_mem o hmem, heq⟩

theorem squashUnderscores_allowed :
    ∀ (l : List Char) (b : Bool), (squashUnderscores l b).all allowedChar = true := by
  intro l
  induction l with
  | nil => intro b; rfl
  | cons c rest ih =>
    intro b
    by_cases h : allowedChar c
    · simp [squashUnderscores, h, ih]
    · cases b with
      | true => simp [squashUnderscores, h, ih]
      | false =>
        simp only [squashUnderscores, h, if_false, Bool.false_eq_true, ite_false]
        simp [List.all_cons, ih, allowedChar]

theorem fetchProductsAux_empty (site : Nat → Page) (u : String → String)
    (fuel k : Nat) (acc : List Product) (reqs : List Nat) (logs : List LogEntry)
    (hempty : (site k).rows = []) :
    fetchProductsAux site u (fuel + 1) k acc reqs logs =
      some (Except.ok ⟨reqs ++ [k], acc,
        (logs ++ [fetchInfoLog k]) ++ [noProductsWarnLog k]⟩) := by
  simp [fetchProductsAux, hempty]

theorem fetchProductsAux_stop (site : Nat → Page) (u : String → String)
    (fuel k : Nat) (acc : List Product) (reqs : List Nat) (logs : List LogEntry)
    (hrows : (site k).rows ≠ [])
    (hstop : pageHasNext (site k) = some false) :
    fetchProductsAux site u (fuel + 1) k acc reqs logs =
      some (Except.ok ⟨reqs ++ [k], acc ++ pageProducts u (site k),
        (logs ++ [fetchInfoLog k]) ++ pageRowLogs u (site k)⟩) := by
  simp [fetchProductsAux, hrows, hstop]

theorem fetchProductsAux_step (site : Nat → Page) (u : String → String)
    (fuel k : Nat) (acc : List Product) (reqs : List Nat) (logs : List LogEntry)
    (hrows : (site k).rows ≠ [])
    (hnext : pageHasNext (site k) = some true) :
    fetchProductsAux site u (fuel + 1) k acc reqs logs =
      fetchProductsAux site u fuel (k + 1)
        (acc ++ pageProducts u (site k)) (reqs ++ [k])
        ((logs ++ [fetchInfoLog k]) ++ pageRowLogs u (site k)) := by
  simp [fetchProductsAux, hrows, hnext]

theorem fetchProductsAux_raise (site : Nat → Page) (u : String → String)
    (fuel k : Nat) (acc : List Product) (reqs : List Nat) (logs : List LogEntry)
    (hrows : (site k).rows ≠ [])
    (hnone : pageHasNext (site k) = none) :
    fetchProductsAux site u (fuel + 1) k acc reqs logs =
      some (Except.error FetchErr.attributeError) := by
  simp [fetchProductsAux, hrows, hnone]

theorem fetchProductsAux_run (site : Nat → Page) (u : String → String) :
    ∀ (m fuel k : Nat) (acc : List Product) (reqs : List Nat) (logs : List LogEntry),
      m + 1 ≤ fuel →
      (∀ i, i ≤ m → (site (k + i)).rows ≠ []) →
      (∀ i, i < m → pageHasNext (site (k + i)) = some true) →
      pageHasNext (site (k + m)) = some false →
      ∃ L, fetchProductsAux site u fuel k acc reqs logs =
        some (Except.ok ⟨reqs ++ pagesFrom k (m + 1),
          acc ++ productsFrom site u k (m + 1), L⟩) := by
  intro m
  induction m with
  | zero =>
    intro fuel k acc reqs logs hfuel hrows hnext hstop
    obtain ⟨f, rfl⟩ : ∃ f, fuel = f + 1 := ⟨fuel - 1, by omega⟩
    refine ⟨(logs ++ [fetchInfoLog k]) ++ pageRowLogs u (site k), ?_⟩
    rw [fetchProductsAux_stop site u f k acc reqs logs
      (by simpa using hrows 0 (by omega)) (by simpa using hstop)]
    simp [pagesFrom, productsFrom]
  | succ n ih =>
    intro fuel k acc reqs logs hfuel hrows hnext hstop
    obtain ⟨f, rfl⟩ : ∃ f, fuel = f + 1 := ⟨fuel - 1, by omega⟩
    rw [fetchProductsAux_step site u f k acc reqs logs
      (by simpa using hrows 0 (by omega)) (by simpa using hnext 0 (by omega))]
    obtain ⟨L, hL⟩ := ih f (k + 1) (acc ++ pageProducts u (site k)) (reqs ++ [k])
      ((logs ++ [fetchInfoLog k]) ++ pageRowLogs u (site k)) (by omega)
      (fun i hi => by
        have h := hrows (i + 1) (by omega)
        rwa [show k + (i + 1) = k + 1 + i by omega] at h)
      (fun i hi => by
        have h := hnext (i + 1) (by omega)
        rwa [show k + (i + 1) = k + 1 + i by omega] at h)
      (by
        have h := hstop
        rwa [show k + (n + 1) = k + 1 + n by omega] at h)
    refine ⟨L, ?_⟩
    rw [hL]
    simp [pagesFrom, productsFrom, List.append_assoc]

theorem fetchProductsAux_empty_run (site : Nat → Page) (u : String → String) :
    ∀ (m fuel k : Nat) (acc : List Product) (reqs : List Nat) (logs : List LogEntry),
      m + 1 ≤ fuel →
      (∀ i, i < m → (site (k + i)).rows ≠ [] ∧ pageHasNext (site (k + i)) = some true) →
      (site (k + m)).rows = [] →
      ∃ L, fetchProductsAux site u fuel k acc reqs logs =
        some (Except.ok ⟨reqs ++ pagesFrom k (m + 1),
          acc ++ productsFrom site u k m, L ++ [noProductsWarnLog (k + m)]⟩) := by
  intro m
  induction m with
  | zero =>
    intro fuel k acc reqs logs hfuel hgood hempty
    obtain ⟨f, rfl⟩ : ∃ f, fuel = f + 1 := ⟨fuel - 1, by omega⟩
    refine ⟨logs ++ [fetchInfoLog k], ?_⟩
    rw [fetchProductsAux_empty site u f k acc reqs logs (by simpa using hempty)]
    simp [pagesFrom, productsFrom]
  | succ n ih =>
    intro fuel k acc reqs logs hfuel hgood hempty
    obtain ⟨f, rfl⟩ : ∃ f, fuel = f + 1 := ⟨fuel - 1, by omega⟩
    rw [fetchProductsAux_step site u f k acc reqs logs
      (by simpa using (hgood 0 (by omega)).1) (by simpa using (hgood 0 (by omega)).2)]
    obtain ⟨L, hL⟩ := ih f (k + 1) (acc ++ pageProducts u (site k)) (reqs ++ [k])
      ((logs ++ [fetchInfoLog k]) ++ pageRowLogs u (site k)) (by omega)
      (fun i hi => by
        have h := hgood (i + 1) (by omega)
        rwa [show k + (i + 1) = k + 1 + i by omega] at h)
      (by
        have h := hempty
        rwa [show k + (n + 1) = k + 1 + n by omega] at h)
    refine ⟨L, ?_⟩
    rw [hL]
    rw [show k + 1 + n = k + (n + 1) by omega]
    simp [pagesFrom, productsFrom, List.append_assoc]

/-! ### Claim theorems -/

/-- C1 counterexample: the `links` invariant fails on the code. A row whose
4th column holds an `<option>` with empty text is not skipped: lines
116-118 insert `opt.text.lower()` as a key unconditionally, so
`fetch_products` returns a product whose `links` contains the empty-string
key. -/
theorem fetch_products_empty_key_counterexample :
    ∃ r, fetch_products
        (fun _ => ⟨[⟨some "T", [⟨"", "http://u"⟩]⟩], some ⟨some ⟨false⟩⟩⟩) id 1 =
          some (Except.ok r) ∧
      r.products.any (fun p => p.links.any (fun kv => kv.1 = "")) = true :=
  ⟨⟨[1], [⟨"T", [("", "http://u")]⟩], [fetchInfoLog 1]⟩, rfl, rfl⟩

/-- C1 (amended): every key in the `links` mapping of a product built from
a table row is the lowercased text of one of that row's `<option>`
elements — which is the empty string exactly when such an option has empty
text, so emptiness of keys is not prevented; and a row with no parseable
options is not skipped but kept with an empty `links` mapping (after a
warning). -/
theorem processRow_links_keys (u : String → String) (row : Row)
    (p : Product) (lgs : List LogEntry)
    (h : processRow u row = (some p, lgs)) :
    ∀ kv ∈ p.links, ∃ opt, opt ∈ row.opts ∧ kv.1 = pyLower opt.text := by
  cases htitle : row.title with
  | none => simp [processRow, htitle] at h
  | some t =>
    simp only [processRow, htitle, Prod.mk.injEq, Option.some.injEq] at h
    obtain ⟨h1, h2⟩ := h
    obtain rfl := h1
    intro kv hkv
    rcases links_foldl_keys row.opts [] kv hkv with h3 | h3
    · simp at h3
    · exact h3

/-- Witness for `processRow_links_keys` at a concrete row. -/
theorem processRow_links_keys_witness :
    processRow id ⟨some "T", [⟨"PDF", "u"⟩]⟩ = (some ⟨"T", [("pdf", "u")]⟩, []) ∧
    ∀ kv ∈ (⟨"T", [("pdf", "u")]⟩ : Product).links,
      ∃ opt, opt ∈ (⟨some "T", [⟨"PDF", "u"⟩]⟩ : Row).opts ∧ kv.1 = pyLower opt.text :=
  ⟨rfl, processRow_links_keys id ⟨some "T", [⟨"PDF", "u"⟩]⟩ ⟨"T", [("pdf", "u")]⟩ [] rfl⟩

/-- C2 counterexample: a permission-denied failure of `os.mkdir` — an
OSError other than already-exists — does not propagate: the bare
`except OSError: pass` of lines 43-46 swallows it and `download_product`
completes normally. -/
theorem download_product_mkdir_counterexample :
    download_product false (fun _ => false) (some MkdirErr.permissionDenied)
        ⟨"T", []⟩ "ebooks" = Except.ok [] ∧
      MkdirErr.permissionDenied ≠ MkdirErr.alreadyExists :=
  ⟨rfl, by decide⟩

/-- C2 (amended): the per-product directory creation on lines 43-46 never
aborts the run: every `OSError` raised by `os.mkdir` — already-exists,
permission-denied, or any other errno — is swallowed by the bare
`except OSError: pass`, and `download_product` proceeds to the download
loop. -/
theorem download_product_mkdir_swallows_all (overwrite : Bool)
    (isfile : String → Bool) (mkdirE : Option MkdirErr) (p : Product)
    (path : String) :
    ∃ acts, download_product overwrite isfile mkdirE p path = Except.ok acts := by
  cases mkdirE with
  | none => exact ⟨_, rfl⟩
  | some e => exact ⟨_, rfl⟩

/-- C3 counterexample: for a final URL that is neither the login page nor
the dashboard, `login` returns `true` but the message about the unexpected
redirect target is logged at error level (line 76 calls `logger.error`),
not at warning level: no warning-level entry is produced at all. -/
theorem login_no_warning_counterexample :
    (login "user" "pw" "https://example.org/x").1 = true ∧
      ∀ e ∈ (login "user" "pw" "https://example.org/x").2,
        e.1 ≠ LogLevel.warning := by
  decide

/-- C3 (amended): `login` returns `false` exactly when the final URL after
the credential POST equals the login page URL; it returns `true` when the
final URL is the account dashboard; and for any other final URL it returns
`true` while logging an error-level message naming the unexpected redirect
target. -/
theorem login_result_spec (username password finalUrl : String) :
    ((login username password finalUrl).1 = false ↔
      finalUrl = "https://www.apress.com/customer/account/login/") ∧
    (finalUrl = "https://www.apress.com/customer/account/" →
      (login username password finalUrl).1 = true) ∧
    (finalUrl ≠ "https://www.apress.com/customer/account/login/" →
      finalUrl ≠ "https://www.apress.com/customer/account/" →
      (login username password finalUrl).1 = true ∧
        (LogLevel.error,
          "Failed to authenticate with Apress.com, redirected to: " ++ finalUrl) ∈
          (login username password finalUrl).2) := by
  refine ⟨?_, ?_, ?_⟩
  · by_cases h1 : finalUrl = "https://www.apress.com/customer/account/login/"
    · simp [login, h1]
    · by_cases h2 : finalUrl = "https://www.apress.com/customer/account/"
      · simp [login, h1, h2]
      · simp [login, h1, h2]
  · intro h2
    have h1 : finalUrl ≠ "https://www.apress.com/customer/account/login/" := by
      rw [h2]; decide
    simp [login, h1, h2]
  · intro h1 h2
    simp [login, h1, h2]

/-- Witness for `login_result_spec` at a concrete unexpected redirect. -/
theorem login_result_spec_witness :
    (login "user" "pw" "https://example.org/y").1 = true ∧
      (LogLevel.error,
        "Failed to authenticate with Apress.com, redirected to: " ++
          "https://example.org/y") ∈ (login "user" "pw" "https://example.org/y").2 :=
  (login_result_spec "user" "pw" "https://example.org/y").2.2 (by decide) (by decide)

/-- C8: within one parsed table row, a missing title cell (3rd column)
makes `fetch_products` skip the row with a warning and append nothing,
while a present title with no `<option>` elements in the 4th column logs a
warning but still appends a product whose links mapping is empty. -/
theorem processRow_missing_cases (u : String → String) (row : Row) :
    (row.title = none →
      processRow u row =
        (none, [(LogLevel.warning, "Could not find title in product table row!")])) ∧
    (∀ t, row.title = some t → row.opts = [] →
      processRow u row = (some ⟨u t, []⟩,
        [(LogLevel.warning, "Could not find list of downloads for " ++ t)])) := by
  constructor
  · intro h
    simp [processRow, h]
  · intro t ht hopts
    simp [processRow, ht, hopts]

/-- Witness for `processRow_missing_cases`: a row without a title cell is
skipped with a warning; a row titled "T" with no options yields a product
with empty links plus a warning. -/
theorem processRow_missing_cases_witness :
    processRow id ⟨none, [⟨"PDF", "u"⟩]⟩ =
      (none, [(LogLevel.warning, "Could not find title in product table row!")]) ∧
    processRow id ⟨some "T", []⟩ = (some ⟨"T", []⟩,
      [(LogLevel.warning, "Could not find list of downloads for " ++ "T")]) :=
  ⟨(processRow_missing_cases id ⟨none, [⟨"PDF", "u"⟩]⟩).1 rfl,
    (processRow_missing_cases id ⟨some "T", []⟩).2 "T" rfl rfl⟩

theorem stream_foldl_spec (chunks : List String) :
    ∀ (w : List String) (ws : List Unit),
      chunks.foldl
          (fun st chunk => if chunk = "" then st else (st.1 ++ [chunk], st.2 ++ [()]))
          (w, ws) =
        (w ++ chunks.filter (fun c => decide (c ≠ "")),
          ws ++ (chunks.filter (fun c => decide (c ≠ ""))).map (fun _ => ())) := by
  induction chunks with
  | nil =>
    intro w ws
    simp
  | cons c cs ih =>
    intro w ws
    by_cases h : c = ""
    · simp [h, ih]
    · simp [List.foldl_cons, h, ih, List.filter_cons]

/-- C9: `stream_file` writes to the destination exactly the non-empty
chunks of the streamed response body, in the order received, skipping
empty chunks, and returns the `writes` list with one entry per executed
chunk write. -/
theorem stream_file_writes (url filename : String) (chunks : List String) :
    stream_file url filename chunks =
      (chunks.filter (fun c => decide (c ≠ "")),
        (chunks.filter (fun c => decide (c ≠ ""))).map (fun _ => ())) ∧
    (stream_file url filename chunks).2.length =
      (chunks.filter (fun c => decide (c ≠ ""))).length := by
  have h1 : stream_file url filename chunks =
      (chunks.filter (fun c => decide (c ≠ "")),
        (chunks.filter (fun c => decide (c ≠ ""))).map (fun _ => ())) := by
    simpa [stream_file] using stream_foldl_spec chunks [] []
  refine ⟨h1, ?_⟩
  rw [h1]
  simp

/-- C4: for a listing whose pages 1..N all have product rows and whose
pager reports a next control on every page except page N, `fetch_products`
terminates (returns a result within any fuel of at least N loop
iterations), issues exactly the N page requests 1, 2, ..., N with the
1-based page counter starting at 1, and returns the concatenation of the
product records parsed from all N pages in page order. -/
theorem fetch_products_pagination (site : Nat → Page) (u : String → String)
    (N fuel : Nat) (hN : 1 ≤ N) (hfuel : N ≤ fuel)
    (hrows : ∀ p, 1 ≤ p → p ≤ N → (site p).rows ≠ [])
    (hnext : ∀ p, 1 ≤ p → p < N → pageHasNext (site p) = some true)
    (hlast : pageHasNext (site N) = some false) :
    (∃ L, fetch_products site u fuel =
      some (Except.ok ⟨pagesFrom 1 N, productsFrom site u 1 N, L⟩)) ∧
    (pagesFrom 1 N).length = N := by
  obtain ⟨m, rfl⟩ : ∃ m, N = m + 1 := ⟨N - 1, by omega⟩
  refine ⟨?_, pagesFrom_length 1 (m + 1)⟩
  have h := fetchProductsAux_run site u m fuel 1 [] [] [] (by omega)
    (fun i hi => hrows (1 + i) (by omega) (by omega))
    (fun i hi => hnext (1 + i) (by omega) (by omega))
    (by rw [show 1 + m = m + 1 by omega]; exact hlast)
  simpa [fetch_products] using h

/-- Witness for `fetch_products_pagination`: a two-page listing. -/
theorem fetch_products_pagination_witness :
    (∃ L, fetch_products
        (fun p => if p = 1 then ⟨[⟨some "A", [⟨"PDF", "u1"⟩]⟩], some ⟨some ⟨true⟩⟩⟩
          else ⟨[⟨some "B", []⟩], some ⟨some ⟨false⟩⟩⟩) id 5 =
      some (Except.ok ⟨pagesFrom 1 2,
        productsFrom
          (fun p => if p = 1 then ⟨[⟨some "A", [⟨"PDF", "u1"⟩]⟩], some ⟨some ⟨true⟩⟩⟩
            else ⟨[⟨some "B", []⟩], some ⟨some ⟨false⟩⟩⟩) id 1 2, L⟩)) ∧
    (pagesFrom 1 2).length = 2 :=
  fetch_products_pagination
    (fun p => if p = 1 then ⟨[⟨some "A", [⟨"PDF", "u1"⟩]⟩], some ⟨some ⟨true⟩⟩⟩
      else ⟨[⟨some "B", []⟩], some ⟨some ⟨false⟩⟩⟩) id 2 5 (by decide) (by decide)
    (fun p h1 h2 => by
      have h : p = 1 ∨ p = 2 := by omega
      rcases h with h | h <;> subst h <;> decide)
    (fun p h1 h2 => by
      have h : p = 1 := by omega
      subst h
      decide)
    (by decide)

/-- C5: when pages 1..m parse rows and report a next control but page m+1
comes back with zero table rows, `fetch_products` logs a warning and
returns exactly the products accumulated from pages 1..m, having requested
exactly pages 1..m+1 and nothing further. -/
theorem fetch_products_empty_page (site : Nat → Page) (u : String → String)
    (m fuel : Nat) (hfuel : m + 1 ≤ fuel)
    (hgood : ∀ i, i < m →
      (site (1 + i)).rows ≠ [] ∧ pageHasNext (site (1 + i)) = some true)
    (hempty : (site (1 + m)).rows = []) :
    (∃ L, fetch_products site u fuel =
      some (Except.ok ⟨pagesFrom 1 (m + 1), productsFrom site u 1 m,
        L ++ [noProductsWarnLog (1 + m)]⟩)) ∧
    (noProductsWarnLog (1 + m)).1 = LogLevel.warning := by
  refine ⟨?_, rfl⟩
  have h := fetchProductsAux_empty_run site u m fuel 1 [] [] [] hfuel hgood hempty
  simpa [fetch_products] using h

/-- Witness for `fetch_products_empty_page`: a three-page site whose page 2
has zero rows — only page 1's products are returned, pages 1 and 2 are the
only requests, and page 3 is never requested. -/
theorem fetch_products_empty_page_witness :
    ((∃ L, fetch_products
        (fun p => if p = 1 then ⟨[⟨some "A", [⟨"PDF", "u1"⟩]⟩], some ⟨some ⟨true⟩⟩⟩
          else if p = 2 then ⟨[], some ⟨some ⟨true⟩⟩⟩
          else ⟨[⟨some "C", []⟩], some ⟨some ⟨false⟩⟩⟩) id 5 =
      some (Except.ok ⟨pagesFrom 1 2,
        productsFrom
          (fun p => if p = 1 then ⟨[⟨some "A", [⟨"PDF", "u1"⟩]⟩], some ⟨some ⟨true⟩⟩⟩
            else if p = 2 then ⟨[], some ⟨some ⟨true⟩⟩⟩
            else ⟨[⟨some "C", []⟩], some ⟨some ⟨false⟩⟩⟩) id 1 1,
        L ++ [noProductsWarnLog 2]⟩)) ∧
      (noProductsWarnLog 2).1 = LogLevel.warning) ∧
    3 ∉ pagesFrom 1 2 :=
  ⟨fetch_products_empty_page
      (fun p => if p = 1 then ⟨[⟨some "A", [⟨"PDF", "u1"⟩]⟩], some ⟨some ⟨true⟩⟩⟩
        else if p = 2 then ⟨[], some ⟨some ⟨true⟩⟩⟩
        else ⟨[⟨some "C", []⟩], some ⟨some ⟨false⟩⟩⟩) id 1 5 (by decide)
      (fun i hi => by
        have h : i = 0 := by omega
        subst h
        exact ⟨by decide, by decide⟩)
      (by decide),
    by decide⟩

/-- C6 counterexample: the claimed two-step recipe (discard non-ASCII,
then squash disallowed runs) omits the `.strip()` the code performs in
between (line 41): for the title " A" the code-derived name is "A" while
the claimed recipe produces "_A". -/
theorem sanitizeName_strip_counterexample :
    sanitizeName " A" = "A" ∧ claimedSanitizeName " A" = "_A" ∧
      sanitizeName " A" ≠ claimedSanitizeName " A" :=
  ⟨rfl, rfl, by decide⟩

/-- C6 (amended): the directory name `download_product` derives is produced
by discarding non-ASCII characters, stripping leading and trailing
whitespace, and then replacing every maximal run of characters outside
the set of ASCII letters, digits and `_+()[]-` with exactly one
underscore; the result contains only characters from that set, and the
title "C++ Primer: 5th Edition!" yields C++_Primer_5th_Edition_. -/
theorem sanitizeName_spec (title : String) :
    sanitizeName title =
      String.mk (squashUnderscores (pyStrip (asciiEncode title)).data false) ∧
    (sanitizeName title).data.all allowedChar = true ∧
    sanitizeName "C++ Primer: 5th Edition!" = "C++_Primer_5th_Edition_" :=
  ⟨rfl, squashUnderscores_allowed (pyStrip (asciiEncode title)).data false, rfl⟩

/-- C7: with overwrite disabled, each `(extension, url)` link entry whose
target file `path/name/name.extension` already exists yields a skip (info
log, no request, no write) and every other entry yields a streaming
download to that path; consequently, when every target file already
exists, a run performs skips only — no network requests, no writes. -/
theorem download_product_idempotent (isfile : String → Bool)
    (mkdirE : Option MkdirErr) (p : Product) (path : String) :
    download_product false isfile mkdirE p path =
      Except.ok (p.links.map (fun kv =>
        if isfile (targetFile path (sanitizeName p.title) kv.1) then
          DlAction.skip (targetFile path (sanitizeName p.title) kv.1)
        else
          DlAction.download kv.2 (targetFile path (sanitizeName p.title) kv.1))) ∧
    ((∀ kv ∈ p.links, isfile (targetFile path (sanitizeName p.title) kv.1) = true) →
      download_product false isfile mkdirE p path =
        Except.ok (p.links.map (fun kv =>
          DlAction.skip (targetFile path (sanitizeName p.title) kv.1)))) := by
  have hname : ∀ (kv : String × String),
      dlStep false isfile path (sanitizeName p.title) kv =
        if isfile (targetFile path (sanitizeName p.title) kv.1) then
          DlAction.skip (targetFile path (sanitizeName p.title) kv.1)
        else
          DlAction.download kv.2 (targetFile path (sanitizeName p.title) kv.1) := by
    intro kv
    cases hb : isfile (targetFile path (sanitizeName p.title) kv.1) <;> simp [dlStep, hb]
  have hrun : download_product false isfile mkdirE p path =
      Except.ok (p.links.map (dlStep false isfile path (sanitizeName p.title))) := by
    cases mkdirE with
    | none => simp [download_product, tryMkdir, foldl_push_eq_map]
    | some e => simp [download_product, tryMkdir, foldl_push_eq_map]
  have hmap : p.links.map (dlStep false isfile path (sanitizeName p.title)) =
      p.links.map (fun kv =>
        if isfile (targetFile path (sanitizeName p.title) kv.1) then
          DlAction.skip (targetFile path (sanitizeName p.title) kv.1)
        else
          DlAction.download kv.2 (targetFile path (sanitizeName p.title) kv.1)) :=
    List.map_congr_left (fun kv _ => hname kv)
  refine ⟨hrun.trans (congrArg Except.ok hmap), ?_⟩
  intro hall
  refine (hrun.trans (congrArg Except.ok hmap)).trans (congrArg Except.ok ?_)
  exact List.map_congr_left (fun kv hm => by rw [if_pos (hall kv hm)])

/-- Witness for `download_product_idempotent`: one product, one format,
file already on disk — the second run performs a single skip. -/
theorem download_product_idempotent_witness :
    download_product false (fun _ => true) none ⟨"T", [("pdf", "u")]⟩ "ebooks" =
      Except.ok [DlAction.skip "ebooks/T/T.pdf"] :=
  (download_product_idempotent (fun _ => true) none ⟨"T", [("pdf", "u")]⟩
    "ebooks").2 (fun kv hm => rfl)

/-- C10: when a reached listing page has at least one product row but its
HTML has no `div` of class `pager`, `fetch_products` raises
(`AttributeError` from `None.find` on line 122) instead of returning the
accumulated products; pagination only stops cleanly when the pager `div`
exists but its `pages` child or the `next` item is absent. -/
theorem fetch_products_pager_missing (site : Nat → Page) (u : String → String)
    (fuel : Nat) (hfuel : 1 ≤ fuel) (hrows : (site 1).rows ≠ []) :
    ((site 1).pager = none →
      fetch_products site u fuel = some (Except.error FetchErr.attributeError)) ∧
    (∀ pd, (site 1).pager = some pd →
      (pd.pages = none ∨ pd.pages = some ⟨false⟩) →
      ∃ r, fetch_products site u fuel = some (Except.ok r)) := by
  obtain ⟨f, rfl⟩ : ∃ f, fuel = f + 1 := ⟨fuel - 1, by omega⟩
  constructor
  · intro hp
    have hnone : pageHasNext (site 1) = none := by simp [pageHasNext, hp]
    exact fetchProductsAux_raise site u f 1 [] [] [] hrows hnone
  · intro pd hpd hcase
    have hfalse : pageHasNext (site 1) = some false := by
      rcases hcase with h | h <;> simp [pageHasNext, hpd, h]
    exact ⟨_, fetchProductsAux_stop site u f 1 [] [] [] hrows hfalse⟩

/-- Witness for `fetch_products_pager_missing`: a page with one row and no
pager `div` makes the fetch raise instead of returning its products. -/
theorem fetch_products_pager_missing_witness :
    fetch_products (fun _ => ⟨[⟨some "T", []⟩], none⟩) id 1 =
      some (Except.error FetchErr.attributeError) :=
  (fetch_products_pager_missing (fun _ => ⟨[⟨some "T", []⟩], none⟩) id 1
    (by decide) (by decide)).1 rfl
